import Mathlib

/-!
Shallow embedding of the DPU device plugin
(`src/daemon/device-plugin/deviceplugin.go`, package `nfdeviceplugin`).

The Go file implements a Kubernetes device plugin: an in-memory device
registry (`nf.devices : map[string]pluginapi.Device`), a list-and-watch
streaming loop, an allocation handler, startup/cleanup, and two connection
policies.  Machine state (the `nfResources` receiver, the filesystem, the
gRPC server) is threaded explicitly; external effects (dial outcomes, RPC
results, stream-send outcomes) are passed in as parameters.
-/

namespace NfDevicePlugin

/-- `pluginapi.Healthy` : the well-known healthy status string. -/
def Healthy : String := "Healthy"

/-- `pluginapi.Unhealthy` : the well-known unhealthy status string. -/
def Unhealthy : String := "Unhealthy"

/-- The environment key set by `Allocate` (`envmap["NF-DEV"] = devName`). -/
def nfDevKey : String := "NF-DEV"

/-- `resourceName` constant from the source. -/
def resourceName : String := "openshift.io/dpu"

/-- `pluginEndpoint` constant from the source: the plugin socket file name. -/
def pluginEndpointFile : String := "sriovNet.sock"

/-- `pluginMountPath` constant from the source (`pluginapi.DevicePluginPath`
mount directory for the kubelet device-plugin sockets). -/
def pluginMountPath : String := "/var/lib/kubelet/device-plugins"

/-- `pluginapi.Device` : a device record with identity and health status. -/
structure Device where
  ID : String
  Health : String
deriving DecidableEq, Repr

/-- The device registry `nf.devices : map[string]pluginapi.Device`,
modelled as an association list with unique keys (a Go map has unique
keys; its iteration order is unspecified and never relied on). -/
abbrev DevMap : Type := List (String × Device)

/-- Map lookup `dev, ok := nf.devices[id]`. -/
def lookupDev (m : DevMap) (id : String) : Option Device :=
  match m with
  | [] => none
  | p :: rest => if p.1 = id then some p.2 else lookupDev rest id

/-- Map update `nf.devices[id] = dev`: replace the value at an existing
key, or add a new entry. -/
def insertDev (m : DevMap) (id : String) (d : Device) : DevMap :=
  match m with
  | [] => [(id, d)]
  | p :: rest => if p.1 = id then (id, d) :: rest else p :: insertDev rest id d

/-- The keys of the registry. -/
def devKeys (m : DevMap) : List String :=
  m.map Prod.fst

/-- Errors returned by `Allocate` (`fmt.Errorf` with two distinct
messages, each naming the offending device identity):
`nonExistingDevice id` is "invalid allocation request with non-existing
device: id" and `unhealthyDevice id` is "invalid allocation request with
unhealthy device: id". -/
inductive AllocError where
  | nonExistingDevice (id : String)
  | unhealthyDevice (id : String)
deriving DecidableEq, Repr

/-- `pluginapi.ContainerAllocateResponse`, restricted to the only field the
source sets: the `Envs` key/value map. -/
structure ContainerAllocateResponse where
  Envs : List (String × String)
deriving DecidableEq, Repr

/-- Inner loop of `Allocate` over one container group's `DevicesIDs`:
look each id up, fail on a missing or unhealthy device, otherwise extend
the accumulated `devName` with `id ++ ","`.  Note the accumulator is the
`devName` variable declared OUTSIDE the group loop in the source. -/
def allocGroup (m : DevMap) (ids : List String) (devName : String) :
    Except AllocError String :=
  match ids with
  | [] => .ok devName
  | id :: rest =>
    match lookupDev m id with
    | none => .error (.nonExistingDevice id)
    | some dev =>
      if dev.Health ≠ Healthy then .error (.unhealthyDevice id)
      else allocGroup m rest (devName ++ id ++ ",")

/-- Outer loop of `Allocate` over `rqt.ContainerRequests`: for each group
run the inner loop, then append a response whose env maps `"NF-DEV"` to
the accumulated `devName` (which carries over to the next group). -/
def allocateLoop (m : DevMap) (groups : List (List String)) (devName : String) :
    Except AllocError (List ContainerAllocateResponse) :=
  match groups with
  | [] => .ok []
  | g :: rest =>
    match allocGroup m g devName with
    | .error e => .error e
    | .ok devName' =>
      match allocateLoop m rest devName' with
      | .error e => .error e
      | .ok rs => .ok (⟨[(nfDevKey, devName')]⟩ :: rs)

/-- `Allocate`: serve an allocation request (a list of container groups of
device ids) against the registry.  On any failure the whole request fails
with that error and no response is produced. -/
def Allocate (m : DevMap) (rqt : List (List String)) :
    Except AllocError (List ContainerAllocateResponse) :=
  allocateLoop m rqt ""

/-- `getDeviceState`: the source returns the constant `pluginapi.Healthy`
for every device ("TODO: Discover device health"). -/
def getDeviceState (_DeviceName : String) : String :=
  Healthy

/-- The body of `changed()` for one entry of the range: compare the
entry's health with `getDeviceState`, and if they differ rewrite the
record's health and set the changed flag. -/
def changedStep (acc : DevMap × Bool) (p : String × Device) : DevMap × Bool :=
  let state := getDeviceState p.1
  if p.2.Health ≠ state then
    (insertDev acc.1 p.1 ⟨p.2.ID, state⟩, true)
  else
    acc

/-- `changed()` : the registry health check.  Iterates over the devices
map; for each entry whose health differs from `getDeviceState` it writes
the recomputed health back and records that something changed.  Returns
the updated map and the changed flag.  (The Go range only ever updates
the value at the key currently being visited, so folding over the
entry list is an exact model.) -/
def changedRun (m : DevMap) : DevMap × Bool :=
  m.foldl changedStep (m, false)

/-- The response built by `sendDevices`: one `pluginapi.Device` per
registry entry, copying `ID` and `Health`. -/
def snapshotResp (m : DevMap) : List Device :=
  m.map (fun p => ⟨p.2.ID, p.2.Health⟩)

/-- The `nf.grpcServer` field, reduced to the one bit the claims need:
whether `Stop()` has been called on it. -/
structure GrpcServer where
  stopped : Bool
deriving DecidableEq, Repr

/-- The streaming error returned when `stream.Send(resp)` fails. -/
inductive StreamErr where
  | sendFailed
deriving DecidableEq, Repr

/-- `sendDevices`: build the response from the registry and push it on
the stream.  The stream's send outcome is the parameter `sendOk`.  On a
send failure the source calls `nf.grpcServer.Stop()` and returns the
error. -/
def sendDevices (srv : GrpcServer) (sendOk : Bool) :
    GrpcServer × Option StreamErr :=
  if sendOk then (srv, none)
  else ({ srv with stopped := true }, some .sendFailed)

/-- The observable outcome of running the `ListAndWatch` loop for a
bounded number of iterations: final registry and server state, the
responses pushed (in order), and the error the loop returned with, if
it terminated. -/
structure WatchResult where
  devices : DevMap
  server : GrpcServer
  pushes : List (List Device)
  err : Option StreamErr
deriving DecidableEq, Repr

/-- The `ListAndWatch` loop body, run for `fuel` iterations.  Each
iteration: if the changed flag is set, push the current snapshot
(`sendDevices`; the next element of `outcomes` is that push's send
outcome, an exhausted list meaning the stream stays healthy); on a push
failure return the error (with the server stopped by `sendDevices`);
otherwise sleep the 5-second polling interval and recompute the flag
with `changed()`.  Fuel exhaustion models the still-running infinite
loop (no error, loop not terminated). -/
def listAndWatchLoop :
    Nat → DevMap → GrpcServer → List Bool → Bool → WatchResult
  | 0, m, srv, _, _ => ⟨m, srv, [], none⟩
  | fuel + 1, m, srv, outcomes, changedFlag =>
    if changedFlag then
      match sendDevices srv (outcomes.headD true) with
      | (srv', some e) => ⟨m, srv', [], some e⟩
      | (srv', none) =>
        let v := changedRun m
        let r := listAndWatchLoop fuel v.1 srv' outcomes.tail v.2
        ⟨r.devices, r.server, snapshotResp m :: r.pushes, r.err⟩
    else
      let v := changedRun m
      listAndWatchLoop fuel v.1 srv outcomes v.2

/-- `ListAndWatch`: the loop starts with `changed := true` (initial
state Dirty: the first iteration pushes immediately). -/
def ListAndWatch (fuel : Nat) (m : DevMap) (srv : GrpcServer)
    (outcomes : List Bool) : WatchResult :=
  listAndWatchLoop fuel m srv outcomes true

/-- The vendor-plugin gRPC connection (`*grpc.ClientConn`), identified
abstractly. -/
structure ClientConn where
  id : Nat
deriving DecidableEq, Repr

/-- `pb.DeviceServiceClient`, created from a connection by
`pb.NewDeviceServiceClient(conn)`. -/
structure DeviceServiceClient where
  conn : ClientConn
deriving DecidableEq, Repr

/-- The `nfResources` receiver state threaded through the stateful
methods: the socket file name, the device registry, and the memoized
vendor client/connection fields. -/
structure NfResources where
  socketFile : String
  devices : DevMap
  client : Option DeviceServiceClient
  conn : Option ClientConn
deriving DecidableEq, Repr

/-- `NewGrpcPlugin()`: fresh state with an empty device map and the
plugin socket file name. -/
def NewGrpcPlugin : NfResources :=
  { socketFile := pluginEndpointFile, devices := [], client := none, conn := none }

/-- `ensureConnected`: if `nf.client` is already set, return success
immediately.  Otherwise dial the vendor plugin socket (`dialResult` is
that dial's outcome) and on success store both the connection and the
client.  The returned `Bool` records whether a dial was performed. -/
def ensureConnected (nf : NfResources) (dialResult : Except String ClientConn) :
    NfResources × Option String × Bool :=
  match nf.client with
  | some _ => (nf, none, false)
  | none =>
    match dialResult with
    | .error e => (nf, some ("failed to connect to vendor plugin: " ++ e), true)
    | .ok conn =>
      ({ nf with conn := some conn, client := some ⟨conn⟩ }, none, true)

/-- `Allocate` as the method on the `nfResources` receiver, threading the
receiver state: the body only reads `nf.devices` and never assigns any
field, so the returned state is the input state. -/
def AllocateNf (nf : NfResources) (rqt : List (List String)) :
    NfResources × Except AllocError (List ContainerAllocateResponse) :=
  (nf, Allocate nf.devices rqt)

/-- Upsert loop of `GetDevices`: for every device identity returned by
the vendor enumeration RPC, write a record with that identity and
`Healthy` status into the registry. -/
def getDevicesUpdate (ids : List String) (m : DevMap) : DevMap :=
  ids.foldl (fun acc id => insertDev acc id ⟨id, Healthy⟩) m

/-- `GetDevices`: ensure the vendor connection, issue the enumeration
RPC (`rpcResult` is its outcome: the list of device ids, or an error),
and upsert every returned identity with `Healthy` status.  Errors are
wrapped with the source's `fmt.Errorf` prefixes. -/
def GetDevices (nf : NfResources) (dialResult : Except String ClientConn)
    (rpcResult : Except String (List String)) : NfResources × Option String :=
  match ensureConnected nf dialResult with
  | (nf', some e, _) => (nf', some ("failed to ensure connection to plugin: " ++ e))
  | (nf', none, _) =>
    match rpcResult with
    | .error e => (nf', some ("failed to handle GetDevices request: " ++ e))
    | .ok ids => ({ nf' with devices := getDevicesUpdate ids nf'.devices }, none)

/-- The filesystem as seen by `cleanup`: the set of existing paths,
as a list. -/
abbrev FileSystem : Type := List String

/-- The error values `os.Remove` can produce: a not-exist error
(recognized by `os.IsNotExist`) for a missing path, or some other
failure. -/
inductive OsError where
  | notExist
  | other (msg : String)
deriving DecidableEq, Repr

/-- `os.IsNotExist(err)`. -/
def osIsNotExist : OsError → Bool
  | .notExist => true
  | .other _ => false

/-- `os.Remove(path)`: fail with a non-not-exist error (EACCES and the
like) for a path the OS refuses to remove (`locked` holds those paths),
remove the path if it exists, and otherwise fail with a not-exist
error. -/
def osRemove (fs : FileSystem) (locked : List String) (path : String) :
    FileSystem × Option OsError :=
  if path ∈ locked then (fs, some (.other "permission denied"))
  else if path ∈ (fs : List String) then ((fs : List String).erase path, none)
  else (fs, some .notExist)

/-- `filepath.Join(pluginapi.DevicePluginPath, nf.socketFile)`. -/
def pluginSocketPath (socketFile : String) : String :=
  pluginMountPath ++ "/" ++ socketFile

/-- `cleanup`: remove the stale plugin socket; a remove error is
swallowed when `os.IsNotExist` holds for it (absence of the artifact is
not an error), and returned otherwise. -/
def cleanup (nf : NfResources) (fs : FileSystem) (locked : List String) :
    FileSystem × Option OsError :=
  match osRemove fs locked (pluginSocketPath nf.socketFile) with
  | (fs', none) => (fs', none)
  | (fs', some e) => if osIsNotExist e then (fs', none) else (fs', some e)

/-- The wrapped errors `Start` can return, one per startup step, each
carrying the underlying cause (`fmt.Errorf("failed to ...: %v", err)`). -/
inductive StartErr where
  | cleanupFailed (e : OsError)
  | getDevicesFailed (msg : String)
  | registerFailed (msg : String)
deriving DecidableEq, Repr

/-- `Start`: the ordered startup sequence — `cleanup`, then `GetDevices`
(discovery: `dialResult`/`rpcResult` are the vendor dial and enumeration
outcomes), then `RegisterDevicePlugin` (serve + self-test + register:
`registerResult` is its outcome, `none` meaning success).  The first
failing step aborts the whole startup with its wrapped error. -/
def Start (nf : NfResources) (fs : FileSystem) (locked : List String)
    (dialResult : Except String ClientConn)
    (rpcResult : Except String (List String))
    (registerResult : Option String) :
    NfResources × FileSystem × Option StartErr :=
  match cleanup nf fs locked with
  | (fs', some e) => (nf, fs', some (.cleanupFailed e))
  | (fs', none) =>
    match GetDevices nf dialResult rpcResult with
    | (nf', some e) => (nf', fs', some (.getDevicesFailed e))
    | (nf', none) =>
      match registerResult with
      | some e => (nf', fs', some (.registerFailed e))
      | none => (nf', fs', none)

/-- gRPC status codes, reduced to the ones the retry policy mentions. -/
inductive StatusCode where
  | UNAVAILABLE
  | OK
  | otherFailure
deriving DecidableEq, Repr

/-- The client-side retry policy that `connectWithRetry` installs via
`grpc.WithDefaultServiceConfig` (the JSON service-config literal in the
source). -/
structure RetryPolicy where
  MaxAttempts : Nat
  InitialBackoff : Nat
  MaxBackoff : Nat
  BackoffMultiplier : Nat
  RetryableStatusCodes : List StatusCode
deriving DecidableEq, Repr

/-- The concrete policy from the source: 40 attempts, 1s initial
backoff, 16s ceiling, multiplier 2.0, retry only on UNAVAILABLE. -/
def connectRetryPolicy : RetryPolicy :=
  { MaxAttempts := 40
    InitialBackoff := 1
    MaxBackoff := 16
    BackoffMultiplier := 2
    RetryableStatusCodes := [.UNAVAILABLE] }

/-- The overall deadline `context.WithTimeout(..., 5*time.Second)` that
bounds the blocking dial in `connectWithRetry`. -/
def connectOverallTimeout : Nat := 5

/-- Connection errors the bounded-retry dial can return. -/
inductive ConnErr where
  | deadlineExceeded
  | nonRetryable (c : StatusCode)
  | attemptsExhausted
deriving DecidableEq, Repr

/-- Modelled from the spec: the retry machinery that interprets the
policy lives inside the gRPC library, not in this repository; the source
only supplies the policy constants and the 5-second overall timeout.
Per the spec (§4.1), the dial "must retry with exponential backoff
starting at 1 time unit, doubling up to a ceiling of 16 time units,
bounded at 40 attempts, retrying only on a temporarily-unavailable
condition, and blocking the caller until either success or the attempt
budget is exhausted (bounded by an overall timeout)".  `avail n` is the
endpoint's answer to the `n`-th attempt; `backoff` is the wait before
the next attempt and `elapsed` the time spent so far. -/
def dialAttempts (avail : Nat → StatusCode) (p : RetryPolicy) (timeout : Nat) :
    Nat → Nat → Nat → Nat → Except ConnErr ClientConn
  | 0, _, _, _ => .error .attemptsExhausted
  | budget + 1, attempt, backoff, elapsed =>
    match avail attempt with
    | .OK => .ok ⟨attempt⟩
    | code =>
      if code ∉ p.RetryableStatusCodes then .error (.nonRetryable code)
      else if budget = 0 then .error .attemptsExhausted
      else if timeout ≤ elapsed + backoff then .error .deadlineExceeded
      else
        dialAttempts avail p timeout budget (attempt + 1)
          (min (backoff * p.BackoffMultiplier) p.MaxBackoff) (elapsed + backoff)

/-- `connectWithRetry`, as the policy-driven bounded dial: start with
the full attempt budget, the initial backoff and zero elapsed time. -/
def connectWithRetry (avail : Nat → StatusCode) : Except ConnErr ClientConn :=
  dialAttempts avail connectRetryPolicy connectOverallTimeout
    connectRetryPolicy.MaxAttempts 0 connectRetryPolicy.InitialBackoff 0

/-- The registries reachable from the empty initial registry
(`NewGrpcPlugin` makes the map empty) by the two operations that write
it: the `GetDevices` upsert and the `changed()` health rewrite. -/
inductive Reachable : DevMap → Prop where
  | empty : Reachable []
  | refresh (ids : List String) {m : DevMap} :
      Reachable m → Reachable (getDevicesUpdate ids m)
  | healthCheck {m : DevMap} :
      Reachable m → Reachable (changedRun m).1

/-! ### Specification-side definitions

These state what the spec expects and are compared with the embedded
code in the theorems below. -/

/-- Spec-side: the comma-joined list of identities with a trailing
separator after each one. -/
def commaJoin : List String → String
  | [] => ""
  | id :: rest => id ++ "," ++ commaJoin rest

/-- Spec-side: the first offending identity of a scan in request order —
`nonExistingDevice` for an identity absent from the registry,
`unhealthyDevice` for one present with a non-`Healthy` status. -/
def firstBadDevice (m : DevMap) (ids : List String) : Option AllocError :=
  ids.findSome? fun id =>
    match lookupDev m id with
    | none => some (.nonExistingDevice id)
    | some dev => if dev.Health ≠ Healthy then some (.unhealthyDevice id) else none

/-- Spec-side: the per-group responses `Allocate` produces on success,
with the `devName` accumulator carried across groups: group `i` maps
`"NF-DEV"` to the comma-joined identities of groups `0..i`. -/
def expectedResponses (devName : String) :
    List (List String) → List ContainerAllocateResponse
  | [] => []
  | g :: rest =>
    ⟨[(nfDevKey, devName ++ commaJoin g)]⟩ ::
      expectedResponses (devName ++ commaJoin g) rest

/-- All records in the registry have `Healthy` status. -/
def AllHealthy (m : DevMap) : Prop :=
  ∀ p ∈ m, p.2.Health = Healthy

instance (m : DevMap) : Decidable (AllHealthy m) :=
  List.decidableBAll _ m

/-- The registry of the spec's allocation scenario:
`A` Healthy, `B` Unhealthy. -/
def scenarioReg : DevMap :=
  [("A", ⟨"A", Healthy⟩), ("B", ⟨"B", Unhealthy⟩)]

/-- A two-device all-healthy registry used for concrete runs. -/
def exRegAB : DevMap :=
  [("A", ⟨"A", Healthy⟩), ("B", ⟨"B", Healthy⟩)]

/-! ### Registry lemmas -/

@[simp]
theorem lookupDev_nil (id : String) : lookupDev [] id = none := rfl

@[simp]
theorem lookupDev_cons (p : String × Device) (rest : DevMap) (id : String) :
    lookupDev (p :: rest) id =
      if p.1 = id then some p.2 else lookupDev rest id := rfl

@[simp]
theorem insertDev_nil (id : String) (d : Device) :
    insertDev [] id d = [(id, d)] := rfl

@[simp]
theorem insertDev_cons (p : String × Device) (rest : DevMap) (id : String)
    (d : Device) :
    insertDev (p :: rest) id d =
      if p.1 = id then (id, d) :: rest else p :: insertDev rest id d := rfl

@[simp]
theorem devKeys_nil : devKeys [] = [] := rfl

@[simp]
theorem devKeys_cons (p : String × Device) (rest : DevMap) :
    devKeys (p :: rest) = p.1 :: devKeys rest := rfl

theorem lookupDev_insertDev_self (m : DevMap) (id : String) (d : Device) :
    lookupDev (insertDev m id d) id = some d := by
  induction m with
  | nil => simp
  | cons p rest ih =>
    by_cases h : p.1 = id
    · simp [h]
    · simp [h, ih]

theorem lookupDev_insertDev_ne (m : DevMap) (id id' : String) (d : Device)
    (h : id' ≠ id) : lookupDev (insertDev m id d) id' = lookupDev m id' := by
  have h' : ¬ id = id' := fun hc => h hc.symm
  induction m with
  | nil => simp [h']
  | cons p rest ih =>
    by_cases hp : p.1 = id
    · simp [hp, h']
    · simp only [insertDev_cons, if_neg hp, lookupDev_cons, ih]

theorem mem_insertDev (m : DevMap) (id : String) (d : Device)
    (q : String × Device) (hq : q ∈ insertDev m id d) :
    q = (id, d) ∨ q ∈ m := by
  induction m with
  | nil => simpa using hq
  | cons p rest ih =>
    by_cases hp : p.1 = id
    · rw [insertDev_cons, if_pos hp] at hq
      rcases List.mem_cons.mp hq with h | h
      · exact Or.inl h
      · exact Or.inr (List.mem_cons_of_mem _ h)
    · rw [insertDev_cons, if_neg hp] at hq
      rcases List.mem_cons.mp hq with h | h
      · exact Or.inr (List.mem_cons.mpr (Or.inl h))
      · rcases ih h with h' | h'
        · exact Or.inl h'
        · exact Or.inr (List.mem_cons_of_mem _ h')

theorem mem_devKeys_insertDev (m : DevMap) (id : String) (d : Device)
    (x : String) (hx : x ∈ devKeys (insertDev m id d)) :
    x ∈ devKeys m ∨ x = id := by
  simp only [devKeys, List.mem_map] at hx
  obtain ⟨q, hq, hqx⟩ := hx
  rcases mem_insertDev m id d q hq with h | h
  · right
    rw [← hqx, h]
  · left
    exact List.mem_map.mpr ⟨q, h, hqx⟩

theorem nodup_devKeys_insertDev (m : DevMap) (id : String) (d : Device)
    (hm : (devKeys m).Nodup) : (devKeys (insertDev m id d)).Nodup := by
  induction m with
  | nil => simp
  | cons p rest ih =>
    rw [devKeys_cons, List.nodup_cons] at hm
    by_cases hp : p.1 = id
    · rw [insertDev_cons, if_pos hp, devKeys_cons, List.nodup_cons]
      exact ⟨by simpa [← hp] using hm.1, hm.2⟩
    · rw [insertDev_cons, if_neg hp, devKeys_cons, List.nodup_cons]
      refine ⟨fun hmem => ?_, ih hm.2⟩
      rcases mem_devKeys_insertDev rest id d p.1 hmem with h | h
      · exact hm.1 h
      · exact hp h

theorem lookupDev_mem (m : DevMap) (id : String) (d : Device)
    (h : lookupDev m id = some d) : (id, d) ∈ m := by
  induction m with
  | nil => simp at h
  | cons p rest ih =>
    by_cases hp : p.1 = id
    · rw [lookupDev_cons, if_pos hp, Option.some.injEq] at h
      have : p = (id, d) := by
        rcases p with ⟨k, v⟩
        simp only at hp h
        rw [hp, h]
      rw [← this]
      exact List.mem_cons_self _ _
    · rw [lookupDev_cons, if_neg hp] at h
      exact List.mem_cons_of_mem _ (ih h)

theorem mem_devKeys_of_lookupDev (m : DevMap) (id : String) (d : Device)
    (h : lookupDev m id = some d) : id ∈ devKeys m :=
  List.mem_map.mpr ⟨(id, d), lookupDev_mem m id d h, rfl⟩

theorem lookupDev_getDevicesUpdate_not_mem (ids : List String) (m : DevMap)
    (id : String) (h : id ∉ ids) :
    lookupDev (getDevicesUpdate ids m) id = lookupDev m id := by
  induction ids generalizing m with
  | nil => rfl
  | cons i rest ih =>
    have hne : id ≠ i := fun hc => h (hc ▸ List.mem_cons_self i rest)
    have hrest : id ∉ rest := fun hc => h (List.mem_cons_of_mem _ hc)
    rw [getDevicesUpdate, List.foldl_cons, ← getDevicesUpdate, ih _ hrest,
      lookupDev_insertDev_ne _ _ _ _ hne]

theorem lookupDev_getDevicesUpdate_mem (ids : List String) (m : DevMap)
    (id : String) (h : id ∈ ids) :
    lookupDev (getDevicesUpdate ids m) id = some ⟨id, Healthy⟩ := by
  induction ids generalizing m with
  | nil => simp at h
  | cons i rest ih =>
    rw [getDevicesUpdate, List.foldl_cons, ← getDevicesUpdate]
    by_cases hrest : id ∈ rest
    · exact ih _ hrest
    · have hid : id = i := by
        rcases List.mem_cons.mp h with h' | h'
        · exact h'
        · exact absurd h' hrest
      subst hid
      rw [lookupDev_getDevicesUpdate_not_mem _ _ _ hrest,
        lookupDev_insertDev_self]

theorem nodup_devKeys_getDevicesUpdate (ids : List String) (m : DevMap)
    (hm : (devKeys m).Nodup) : (devKeys (getDevicesUpdate ids m)).Nodup := by
  induction ids generalizing m with
  | nil => exact hm
  | cons i rest ih =>
    rw [getDevicesUpdate, List.foldl_cons, ← getDevicesUpdate]
    exact ih _ (nodup_devKeys_insertDev _ _ _ hm)

/-! ### Allocation characterization -/

@[simp]
theorem firstBadDevice_nil (m : DevMap) : firstBadDevice m [] = none := rfl

theorem firstBadDevice_cons (m : DevMap) (id : String) (rest : List String) :
    firstBadDevice m (id :: rest) =
      (match lookupDev m id with
        | none => some (AllocError.nonExistingDevice id)
        | some dev =>
          if dev.Health ≠ Healthy then some (AllocError.unhealthyDevice id)
          else none).or (firstBadDevice m rest) := by
  rw [firstBadDevice, List.findSome?_cons]
  rcases lookupDev m id with _ | dev
  · rfl
  · by_cases h : dev.Health = Healthy <;> simp [h, firstBadDevice, Option.or]

theorem firstBadDevice_append (m : DevMap) (l₁ l₂ : List String) :
    firstBadDevice m (l₁ ++ l₂) =
      (firstBadDevice m l₁).or (firstBadDevice m l₂) := by
  rw [firstBadDevice, List.findSome?_append]
  rfl

theorem allocGroup_eq (m : DevMap) (g : List String) (acc : String) :
    allocGroup m g acc =
      match firstBadDevice m g with
      | some e => .error e
      | none => .ok (acc ++ commaJoin g) := by
  induction g generalizing acc with
  | nil => simp [allocGroup, commaJoin, String.append_empty]
  | cons id rest ih =>
    rw [allocGroup, firstBadDevice_cons]
    rcases hl : lookupDev m id with _ | dev
    · rfl
    · by_cases h : dev.Health = Healthy
      · simp only [h, ne_eq, not_true_eq_false, if_false, ih, Option.none_or,
          commaJoin]
        simp [String.append_assoc]
      · simp [h, Option.or]

theorem allocateLoop_eq (m : DevMap) (groups : List (List String)) (acc : String) :
    allocateLoop m groups acc =
      match firstBadDevice m groups.flatten with
      | some e => .error e
      | none => .ok (expectedResponses acc groups) := by
  induction groups generalizing acc with
  | nil => rfl
  | cons g rest ih =>
    rw [allocateLoop, allocGroup_eq, List.flatten_cons, firstBadDevice_append]
    rcases hg : firstBadDevice m g with _ | e
    · simp only [Option.none_or, ih]
      rcases hr : firstBadDevice m rest.flatten with _ | e' <;>
        simp [expectedResponses]
    · rfl

/-! ### Health lemmas -/

theorem changedStep_healthy (acc : DevMap × Bool) (p : String × Device)
    (hp : p.2.Health = Healthy) : changedStep acc p = acc := by
  simp [changedStep, getDeviceState, hp]

theorem foldl_changedStep_healthy (l : List (String × Device))
    (acc : DevMap × Bool) (h : ∀ p ∈ l, p.2.Health = Healthy) :
    l.foldl changedStep acc = acc := by
  induction l generalizing acc with
  | nil => rfl
  | cons p rest ih =>
    rw [List.foldl_cons,
      changedStep_healthy acc p (h p (List.mem_cons_self _ _)),
      ih _ fun q hq => h q (List.mem_cons_of_mem _ hq)]

theorem changedRun_all_healthy (m : DevMap) (h : AllHealthy m) :
    changedRun m = (m, false) :=
  foldl_changedStep_healthy m (m, false) h

theorem allHealthy_insertDev (m : DevMap) (id : String) (d : Device)
    (hm : AllHealthy m) (hd : d.Health = Healthy) :
    AllHealthy (insertDev m id d) := by
  intro q hq
  rcases mem_insertDev m id d q hq with h | h
  · rw [h]
    exact hd
  · exact hm q h

theorem allHealthy_getDevicesUpdate (ids : List String) (m : DevMap)
    (hm : AllHealthy m) : AllHealthy (getDevicesUpdate ids m) := by
  induction ids generalizing m with
  | nil => exact hm
  | cons i rest ih =>
    rw [getDevicesUpdate, List.foldl_cons, ← getDevicesUpdate]
    exact ih _ (allHealthy_insertDev _ _ _ hm rfl)

/-- Every registry reachable from the empty initial one is all-healthy:
`GetDevices` only inserts `Healthy` records, and `changed()` only ever
rewrites a record's health to `getDeviceState`'s constant `Healthy`. -/
theorem reachable_allHealthy (m : DevMap) (hm : Reachable m) : AllHealthy m := by
  induction hm with
  | empty => intro q hq; simp at hq
  | refresh ids _ ih => exact allHealthy_getDevicesUpdate _ _ ih
  | healthCheck _ ih =>
    rw [changedRun_all_healthy _ ih]
    exact ih

theorem firstBadDevice_allHealthy (m : DevMap) (ids : List String)
    (hm : AllHealthy m) (id : String) :
    firstBadDevice m ids ≠ some (.unhealthyDevice id) := by
  intro hbad
  obtain ⟨i, _hi, hf⟩ := List.exists_of_findSome?_eq_some hbad
  rcases hl : lookupDev m i with _ | dev
  · rw [hl] at hf
    simp at hf
  · rw [hl] at hf
    have hdev : dev.Health = Healthy := hm (i, dev) (lookupDev_mem m i dev hl)
    simp [hdev] at hf

/-! ### Watch-loop lemmas -/

theorem listAndWatchLoop_clean (fuel : Nat) (m : DevMap) (srv : GrpcServer)
    (outcomes : List Bool) (hm : AllHealthy m) :
    listAndWatchLoop fuel m srv outcomes false = ⟨m, srv, [], none⟩ := by
  induction fuel with
  | zero => rfl
  | succ k ih =>
    rw [listAndWatchLoop]
    simp only [if_neg Bool.false_ne_true, changedRun_all_healthy m hm]
    exact ih

theorem listAndWatchLoop_err_stopped (fuel : Nat) (m : DevMap)
    (srv : GrpcServer) (outcomes : List Bool) (flag : Bool) (e : StreamErr)
    (he : (listAndWatchLoop fuel m srv outcomes flag).err = some e) :
    (listAndWatchLoop fuel m srv outcomes flag).server.stopped = true ∧
    e = .sendFailed := by
  induction fuel generalizing m srv outcomes flag with
  | zero => simp [listAndWatchLoop] at he
  | succ k ih =>
    rw [listAndWatchLoop] at he ⊢
    by_cases hf : flag = true
    · rw [hf, if_pos rfl] at he ⊢
      rcases ho : outcomes.headD true with _ | _
      · simp only [sendDevices, ho, Bool.false_eq_true, if_false] at he ⊢
        cases e
        simp_all
      · simp only [sendDevices, ho, if_true] at he ⊢
        exact ⟨(ih _ _ _ _ he).1, by cases e; trivial⟩
    · rw [if_neg hf] at he ⊢
      exact ih _ _ _ _ he

/-! ### Claim theorems -/

/-- C1 (counterexample): the claim that each group's response maps the
well-known key to the comma-joined identities of THAT group is false:
allocating the two healthy-device groups `[["A"], ["B"]]` yields, for the
second group, the env value `"A,B,"` (the `devName` accumulator carries
across groups) instead of `"B,"`; and the well-known key the code sets is
`"NF-DEV"`, not the spec scenario's `"DEV"`. -/
theorem c1_counterexample :
    Allocate exRegAB [["A"], ["B"]] =
      .ok [⟨[(nfDevKey, "A,")]⟩, ⟨[(nfDevKey, "A,B,")]⟩] ∧
    commaJoin ["B"] = "B," ∧ "A,B," ≠ "B," ∧ nfDevKey ≠ "DEV" := by
  refine ⟨rfl, rfl, by decide, by decide⟩

/-- C1 (amended): for every allocation request whose device identities
are all present and Healthy, `Allocate` succeeds, and group `i`'s
response is an environment mapping with the single key `"NF-DEV"` whose
value is the comma-joined identities of groups `0..i` in request order
(each identity followed by the separator); in particular a single-group
request gets exactly its own comma-joined identities (allocating
`["A"]` yields env value `"A,"`). -/
theorem c1_allocate_healthy (m : DevMap) (groups : List (List String))
    (h : ∀ id ∈ groups.flatten,
      ∃ d, lookupDev m id = some d ∧ d.Health = Healthy) :
    Allocate m groups = .ok (expectedResponses "" groups) := by
  have hnone : firstBadDevice m groups.flatten = none := by
    rw [firstBadDevice, List.findSome?_eq_none_iff]
    intro id hid
    obtain ⟨d, hld, hh⟩ := h id hid
    simp [hld, hh]
  rw [Allocate, allocateLoop_eq, hnone]

/-- C1 witness: the spec scenario `Allocate([["A"]])` on the registry
with healthy `A` and `B` succeeds with env `NF-DEV ↦ "A,"`. -/
theorem c1_allocate_healthy_witness :
    Allocate exRegAB [["A"]] = .ok [⟨[(nfDevKey, "A,")]⟩] := by
  have h := c1_allocate_healthy exRegAB [["A"]] (by
    intro id hid
    simp only [List.flatten, List.append_nil, List.mem_cons,
      List.not_mem_nil, or_false] at hid
    subst hid
    exact ⟨⟨"A", Healthy⟩, rfl, rfl⟩)
  exact h

/-- C2: if any requested identity scans as bad — absent from the
registry (`nonExistingDevice`) or present with non-Healthy status
(`unhealthyDevice`) — then `Allocate` fails the whole request with the
error of the first offending identity in request order, naming that
identity, and produces no response at all; and any absent or unhealthy
requested identity guarantees such a first offender exists. -/
theorem c2_allocate_bad_device (m : DevMap) (rqt : List (List String)) :
    (∀ e, firstBadDevice m rqt.flatten = some e → Allocate m rqt = .error e) ∧
    (∀ id ∈ rqt.flatten, lookupDev m id = none →
      (firstBadDevice m rqt.flatten).isSome) ∧
    (∀ id ∈ rqt.flatten, ∀ d, lookupDev m id = some d → d.Health ≠ Healthy →
      (firstBadDevice m rqt.flatten).isSome) := by
  refine ⟨fun e he => ?_, fun id hid hl => ?_, fun id hid d hl hh => ?_⟩
  · rw [Allocate, allocateLoop_eq, he]
  · by_contra hns
    rw [Option.not_isSome_iff_eq_none, firstBadDevice,
      List.findSome?_eq_none_iff] at hns
    have := hns id hid
    simp [hl] at this
  · by_contra hns
    rw [Option.not_isSome_iff_eq_none, firstBadDevice,
      List.findSome?_eq_none_iff] at hns
    have := hns id hid
    simp [hl, hh] at this

/-- C2 witness: on the spec scenario registry (`A` Healthy, `B`
Unhealthy), allocating `[["C"]]` fails with the unknown-device error
naming `C`, and allocating `[["B"]]` fails with the unhealthy-device
error naming `B`. -/
theorem c2_allocate_bad_device_witness :
    Allocate scenarioReg [["C"]] = .error (.nonExistingDevice "C") ∧
    Allocate scenarioReg [["B"]] = .error (.unhealthyDevice "B") :=
  ⟨(c2_allocate_bad_device scenarioReg [["C"]]).1 _ rfl,
   (c2_allocate_bad_device scenarioReg [["B"]]).1 _ rfl⟩

/-- C3: after a successful refresh returning identity set `ids`, the
registry contains exactly one record per identity in `ids` (its key
occurs exactly once), each with Healthy status, and registry keys stay
unique. -/
theorem c3_getDevices_refresh (ids : List String) (m : DevMap)
    (hm : (devKeys m).Nodup) :
    (∀ id ∈ ids,
      lookupDev (getDevicesUpdate ids m) id = some ⟨id, Healthy⟩ ∧
      (devKeys (getDevicesUpdate ids m)).count id = 1) ∧
    (devKeys (getDevicesUpdate ids m)).Nodup := by
  have hnd := nodup_devKeys_getDevicesUpdate ids m hm
  refine ⟨fun id hid => ?_, hnd⟩
  have hl := lookupDev_getDevicesUpdate_mem ids m id hid
  exact ⟨hl, List.count_eq_one_of_mem hnd (mem_devKeys_of_lookupDev _ _ _ hl)⟩

/-- C3 witness: refreshing the empty registry with `["A", "B"]` leaves
exactly one Healthy record for `A` and unique keys. -/
theorem c3_getDevices_refresh_witness :
    lookupDev (getDevicesUpdate ["A", "B"] []) "A" = some ⟨"A", Healthy⟩ ∧
    (devKeys (getDevicesUpdate ["A", "B"] [])).count "A" = 1 ∧
    (devKeys (getDevicesUpdate ["A", "B"] [])).Nodup := by
  have h := c3_getDevices_refresh ["A", "B"] [] (by simp)
  exact ⟨(h.1 "A" (by simp)).1, (h.1 "A" (by simp)).2, h.2⟩

/-- C4: a watch stream against an all-healthy registry (whose health
therefore never changes — `changed()` reports no change) pushes exactly
one response, the initial snapshot (the loop starts Dirty, so the first
push is immediate), and then pushes nothing more for any number of
further polling iterations, leaving registry and server untouched. -/
theorem c4_watch_single_push (m : DevMap) (srv : GrpcServer) (n : Nat)
    (hm : AllHealthy m) (hn : 1 ≤ n) :
    ListAndWatch n m srv [] = ⟨m, srv, [snapshotResp m], none⟩ := by
  obtain ⟨k, rfl⟩ : ∃ k, n = k + 1 := ⟨n - 1, (Nat.succ_pred_eq_of_pos hn).symm⟩
  rw [ListAndWatch, listAndWatchLoop]
  simp [sendDevices, changedRun_all_healthy m hm,
    listAndWatchLoop_clean k m srv [] hm]

/-- C4 witness: three iterations over the healthy two-device registry
produce exactly one push. -/
theorem c4_watch_single_push_witness :
    ListAndWatch 3 exRegAB ⟨false⟩ [] =
      ⟨exRegAB, ⟨false⟩, [snapshotResp exRegAB], none⟩ :=
  c4_watch_single_push exRegAB ⟨false⟩ 3 (by decide) (by decide)

/-- C5: a push failure is fatal: if the first push on a list-and-watch
stream fails, the serving loop terminates immediately with the send
error and the underlying gRPC server has been stopped
(`grpcServer.Stop()` in `sendDevices`); and in general, whenever a run
of the loop terminates with an error — a failing push being the only
error source — the server has been stopped and the error is the send
failure.  The failure tears down the whole server, not just the
stream. -/
theorem c5_push_failure_fatal (fuel : Nat) (m : DevMap) (srv : GrpcServer)
    (rest outcomes : List Bool) (h : 1 ≤ fuel) :
    ListAndWatch fuel m srv (false :: rest) =
      ⟨m, { srv with stopped := true }, [], some .sendFailed⟩ ∧
    (∀ e, (ListAndWatch fuel m srv outcomes).err = some e →
      (ListAndWatch fuel m srv outcomes).server.stopped = true ∧
      e = .sendFailed) := by
  obtain ⟨k, rfl⟩ : ∃ k, fuel = k + 1 :=
    ⟨fuel - 1, (Nat.succ_pred_eq_of_pos h).symm⟩
  constructor
  · rw [ListAndWatch, listAndWatchLoop]
    simp [sendDevices]
  · intro e he
    exact listAndWatchLoop_err_stopped _ _ _ _ _ _ he

/-- C5 witness: a failing first push on the two-device registry stops
the server and ends the loop with the send error, pushing nothing. -/
theorem c5_push_failure_fatal_witness :
    ListAndWatch 1 exRegAB ⟨false⟩ [false] =
      ⟨exRegAB, ⟨true⟩, [], some .sendFailed⟩ :=
  (c5_push_failure_fatal 1 exRegAB ⟨false⟩ [] [false] (by decide)).1

/-- C6: against a permanently unavailable endpoint the bounded-retry
dial terminates with a connection error rather than hanging, under the
source's exact policy: initial backoff 1 time unit doubling to a ceiling
of 16, at most 40 attempts, retrying only on UNAVAILABLE, all bounded by
the overall 5-time-unit timeout (which is what fires here). -/
theorem c6_connect_retry_terminates (avail : Nat → StatusCode)
    (h : ∀ n, avail n = .UNAVAILABLE) :
    connectWithRetry avail = .error .deadlineExceeded ∧
    connectRetryPolicy.MaxAttempts = 40 ∧
    connectRetryPolicy.InitialBackoff = 1 ∧
    connectRetryPolicy.MaxBackoff = 16 ∧
    connectRetryPolicy.BackoffMultiplier = 2 ∧
    connectRetryPolicy.RetryableStatusCodes = [.UNAVAILABLE] ∧
    connectOverallTimeout = 5 := by
  have he : avail = fun _ => .UNAVAILABLE := funext h
  subst he
  exact ⟨rfl, rfl, rfl, rfl, rfl, rfl, rfl⟩

/-- C6 witness: the concrete always-unavailable endpoint makes the dial
return the deadline-exceeded connection error. -/
theorem c6_connect_retry_terminates_witness :
    connectWithRetry (fun _ => .UNAVAILABLE) = .error .deadlineExceeded :=
  (c6_connect_retry_terminates (fun _ => .UNAVAILABLE) (fun _ => rfl)).1

/-- C7: when the stale socket artifact is absent (and the OS does not
refuse its removal), `cleanup` succeeds and leaves the filesystem
unchanged; startup with a zero-device discovery still completes
successfully, leaving the registry exactly as it was (empty, when
starting from the fresh state); and a failing startup step aborts the
whole startup with that step's wrapped error — a non-not-exist cleanup
failure (the socket path the OS refuses to remove), a failing
discovery, or a failing registration. -/
theorem c7_startup (nf : NfResources) (fs : FileSystem) (conn : ClientConn)
    (rpcE regE : String) (habs : pluginSocketPath nf.socketFile ∉ fs) :
    cleanup nf fs [] = (fs, none) ∧
    (nf.client = none →
      Start nf fs [] (.ok conn) (.ok []) none =
        ({ nf with conn := some conn, client := some ⟨conn⟩ }, fs, none)) ∧
    (∀ fs' locked, pluginSocketPath nf.socketFile ∈ locked →
      Start nf fs' locked (.ok conn) (.ok []) none =
        (nf, fs', some (.cleanupFailed (.other "permission denied")))) ∧
    (Start nf fs [] (.ok conn) (.error rpcE) none).2.2 =
      some (.getDevicesFailed ("failed to handle GetDevices request: " ++ rpcE)) ∧
    (Start nf fs [] (.ok conn) (.ok []) (some regE)).2.2 =
      some (.registerFailed regE) := by
  have hc : cleanup nf fs [] = (fs, none) := by
    simp [cleanup, osRemove, habs, osIsNotExist]
  refine ⟨hc, fun hcl => ?_, fun fs' locked hlk => ?_, ?_, ?_⟩
  · simp [Start, hc, GetDevices, ensureConnected, hcl, getDevicesUpdate]
  · simp [Start, cleanup, osRemove, hlk, osIsNotExist]
  · simp [Start, hc, GetDevices, ensureConnected]
    rcases nf.client with _ | c <;> simp
  · simp [Start, hc, GetDevices, ensureConnected, getDevicesUpdate]
    rcases nf.client with _ | c <;> simp

/-- C7 witness: from the fresh plugin state with an empty filesystem,
cleanup finds no stale socket and succeeds, a zero-device startup
completes with the registry still empty, and when the OS refuses to
remove the socket, startup aborts with the wrapped cleanup error. -/
theorem c7_startup_witness :
    cleanup NewGrpcPlugin [] [] = ([], none) ∧
    Start NewGrpcPlugin [] [] (.ok ⟨0⟩) (.ok []) none =
      ({ NewGrpcPlugin with conn := some ⟨0⟩, client := some ⟨⟨0⟩⟩ }, [], none) ∧
    Start NewGrpcPlugin [] [pluginSocketPath NewGrpcPlugin.socketFile]
        (.ok ⟨0⟩) (.ok []) none =
      (NewGrpcPlugin, [], some (.cleanupFailed (.other "permission denied"))) := by
  have h := c7_startup NewGrpcPlugin [] ⟨0⟩ "e1" "e2" (by simp)
  exact ⟨h.1, h.2.1 rfl,
    h.2.2.1 [] [pluginSocketPath NewGrpcPlugin.socketFile]
      (List.mem_singleton.mpr rfl)⟩

/-- C8: `Allocate` has no side effect on the receiver: the state after
any call (successful or failing) is exactly the state before, and an
idempotent caller re-requesting the same identities on the resulting
state receives the same answer. -/
theorem c8_allocate_no_side_effect (nf : NfResources)
    (rqt : List (List String)) :
    (AllocateNf nf rqt).1 = nf ∧
    (AllocateNf (AllocateNf nf rqt).1 rqt).2 = (AllocateNf nf rqt).2 :=
  ⟨rfl, rfl⟩

/-- C9: the vendor connection is lazy and memoized: with no client yet,
`ensureConnected` dials and stores connection and client; with a client
already set it returns success immediately without dialing and leaves
the state unchanged; hence after a successful first call every
subsequent call is a no-op success. -/
theorem c9_ensureConnected_memoized (nf : NfResources) (conn : ClientConn)
    (d : Except String ClientConn) :
    (nf.client = none →
      ensureConnected nf (.ok conn) =
        ({ nf with conn := some conn, client := some ⟨conn⟩ }, none, true)) ∧
    (∀ c, nf.client = some c → ensureConnected nf d = (nf, none, false)) ∧
    (nf.client = none →
      ensureConnected (ensureConnected nf (.ok conn)).1 d =
        ((ensureConnected nf (.ok conn)).1, none, false)) := by
  refine ⟨fun h => ?_, fun c hc => ?_, fun h => ?_⟩
  · simp [ensureConnected, h]
  · simp [ensureConnected, hc]
  · have h1 : ensureConnected nf (.ok conn) =
        ({ nf with conn := some conn, client := some ⟨conn⟩ }, none, true) := by
      simp [ensureConnected, h]
    rw [h1]
    simp [ensureConnected]

/-- C9 witness: from the fresh state, the first call dials and stores
the client; the second call (even with the endpoint now down) succeeds
without dialing and changes nothing. -/
theorem c9_ensureConnected_memoized_witness :
    ensureConnected NewGrpcPlugin (.ok ⟨0⟩) =
      ({ NewGrpcPlugin with conn := some ⟨0⟩, client := some ⟨⟨0⟩⟩ }, none, true) ∧
    ensureConnected (ensureConnected NewGrpcPlugin (.ok ⟨0⟩)).1 (.error "down") =
      ((ensureConnected NewGrpcPlugin (.ok ⟨0⟩)).1, none, false) :=
  ⟨(c9_ensureConnected_memoized NewGrpcPlugin ⟨0⟩ (.error "down")).1 rfl,
   (c9_ensureConnected_memoized NewGrpcPlugin ⟨0⟩ (.error "down")).2.2 rfl⟩

/-- C10: every registry reachable from the empty initial state via
`GetDevices` and `changed()` holds only Healthy records (`GetDevices`
inserts Healthy records and `changed()` rewrites health to
`getDeviceState`'s constant Healthy), so the unhealthy-device error
branch of `Allocate` is unreachable on such registries. -/
theorem c10_unhealthy_branch_unreachable (m : DevMap) (hm : Reachable m) :
    AllHealthy m ∧
    ∀ rqt id, Allocate m rqt ≠ .error (.unhealthyDevice id) := by
  have hall := reachable_allHealthy m hm
  refine ⟨hall, fun rqt id heq => ?_⟩
  rw [Allocate, allocateLoop_eq] at heq
  rcases hfb : firstBadDevice m rqt.flatten with _ | e
  · rw [hfb] at heq
    simp at heq
  · rw [hfb] at heq
    simp only [Except.error.injEq] at heq
    exact firstBadDevice_allHealthy m rqt.flatten hall id (heq ▸ hfb)

/-- C10 witness: on the registry reached by one refresh with `["A"]`,
allocating `A` does not hit the unhealthy-device branch. -/
theorem c10_unhealthy_branch_unreachable_witness :
    Allocate (getDevicesUpdate ["A"] []) [["A"]] ≠
      .error (.unhealthyDevice "A") :=
  (c10_unhealthy_branch_unreachable (getDevicesUpdate ["A"] [])
    (Reachable.refresh ["A"] Reachable.empty)).2 [["A"]] "A"

end NfDevicePlugin
